/-
  Verification of the client-side interaction layer of the library-catalog
  web application (JavaScript sources under src/).

  The JavaScript is shallowly embedded: pure helpers become Lean functions,
  DOM/class-list/timer side effects become explicit state records, and the
  fetch-response handlers become functions from a response value to an
  abstract outcome.  JS numbers appearing here are integral millisecond
  quantities, modelled as Nat (durations, always non-negative at the call
  sites) or Int (differences of timestamps).
-/
import Mathlib

/-! ## `formatTimeLeft` (scripts/utils, `function formatTimeLeft(ms)`)

The JS builds the list `units = [d, h mod 24, m mod 60, s mod 60]`, keeps the
non-zero entries, returns `'0s'` when none remain, and otherwise joins the
first three as `"<value><label>"` separated by spaces.  At every call site
the argument is a positive number of milliseconds, so the embedding takes a
`Nat` (JS `Math.floor` on non-negative numbers is Nat division). -/

def formatTimeLeft (ms : Nat) : String :=
  let units : List (Nat × String) :=
    [ (ms / (1000 * 60 * 60 * 24), "d")
    , (ms / (1000 * 60 * 60) % 24, "h")
    , (ms / (1000 * 60) % 60, "m")
    , (ms / 1000 % 60, "s") ]
  let nonZeroUnits := units.filter (fun u => decide (0 < u.1))
  if nonZeroUnits.isEmpty then "0s"
  else String.intercalate " " ((nonZeroUnits.take 3).map (fun u => toString u.1 ++ u.2))

/-- Follows the spec's words only (for comparison with `formatTimeLeft`):
"the largest three non-zero units among days, hours, minutes, seconds
(suffixed d/h/m/s, space-separated, largest first)", `"0s"` when every unit
is zero.  The four units of a millisecond duration, largest first, are the
whole days, the leftover hours, the leftover minutes and the leftover
seconds. -/
def specTimeLeft (ms : Nat) : String :=
  let unitsLargestFirst : List (Nat × String) :=
    [ (ms / 86400000, "d")
    , (ms % 86400000 / 3600000, "h")
    , (ms % 3600000 / 60000, "m")
    , (ms % 60000 / 1000, "s") ]
  let nonZero := unitsLargestFirst.filter (fun u => u.1 ≠ 0)
  if nonZero = [] then "0s"
  else String.intercalate " " ((nonZero.take 3).map (fun u => toString u.1 ++ u.2))

/-! ## Borrow-record timers (scripts/borrows.js)

Each unreturned record gets two recurring one-second timers.  The DOM state a
tick can touch is modelled explicitly: the clock icon's tracked CSS classes
(`critical`, `warning`), the tooltip text, the return button's `disabled`
flag, and whether the recurring interval is still scheduled
(`clearInterval` sets it to `false`). -/

/-- State of the clock icon and its due-status timer. -/
structure ClockState where
  critical : Bool
  warning : Bool
  tooltip : String
  timerActive : Bool
deriving Repr, DecidableEq

/-- The `addClass` helper inside `updateDueTimer`: adding `'warning'` first
removes `'critical'` and vice versa, then the class is added if absent
(`classList.add` is idempotent; only the two tracked classes occur). -/
def ClockState.addClass (s : ClockState) (name : String) : ClockState :=
  let s1 :=
    if name = "warning" then { s with critical := false }
    else if name = "critical" then { s with warning := false }
    else s
  if name = "warning" then { s1 with warning := true }
  else if name = "critical" then { s1 with critical := true }
  else s1

/-- One day in milliseconds, `24 * 60 * 60 * 1000`. -/
def dayMs : Int := 24 * 60 * 60 * 1000

/-- One tick of `updateDueTimer`: `timeLeft = dueDate - now`; tooltip shows
`'Overdue!'` or `` `Due in ${formatTimeLeft(timeLeft)}` ``; then the branch
ladder sets the styling and, at `timeLeft <= 0`, cancels the interval. -/
def updateDueTimer (dueDate now : Int) (s : ClockState) : ClockState :=
  let timeLeft := dueDate - now
  let s :=
    { s with tooltip :=
        if timeLeft ≤ 0 then "Overdue!"
        else "Due in " ++ formatTimeLeft timeLeft.toNat }
  if timeLeft ≤ 0 then
    ({ s with timerActive := false }).addClass "critical"
  else if timeLeft ≤ 3 * dayMs then s.addClass "critical"
  else if timeLeft ≤ 7 * dayMs then s.addClass "warning"
  else { s with critical := false, warning := false }

/-- State of the return button and its cooldown timer. -/
structure ReturnState where
  disabled : Bool
  tooltip : String
  timerActive : Bool
deriving Repr, DecidableEq

/-- One tick of `updateReturnTimer`:
`returnAvailableTime = borrowDate + 1*(24*60*60*1000)`,
`timeLeft = returnAvailableTime - now`; the button is disabled exactly when
`timeLeft > 0`, the tooltip shows the countdown or the prompt, and at
`timeLeft <= 0` the interval is cancelled. -/
def updateReturnTimer (borrowDate now : Int) (s : ReturnState) : ReturnState :=
  let returnAvailableTime := borrowDate + 1 * dayMs
  let timeLeft := returnAvailableTime - now
  { disabled := decide (0 < timeLeft)
    tooltip :=
      if timeLeft ≤ 0 then "Return this book"
      else "You can return this in " ++ formatTimeLeft timeLeft.toNat
    timerActive := if timeLeft ≤ 0 then false else s.timerActive }

/-! ## Modal action controllers
(`modal-logout.js` with `borrowBook`, the return-modal script with
`returnBook`, `modal-delete.js` with `deleteBook`, and the top-level logout
submit handler.)

Each submit handler POSTs the form and branches on the parsed JSON body.  The
body is modelled by its three recognised optional fields; a JS `if (data.x)`
test is the truthiness of the field (absent or `""` is falsy).  The visible
result of a run is an `Outcome`; the handler also performs a sequence of
`disabled`-flag mutations on the submit button, recorded as `BtnEvent`s. -/

/-- Parsed JSON body of a modal POST response (the recognised fields). -/
structure ApiResponse where
  redirect : Option String := none
  log_error : Option String := none
  modal_error : Option String := none
deriving Repr, DecidableEq

/-- JS truthiness of an optional string field: a missing field and the empty
string are falsy, any other string is truthy. -/
def truthy : Option String → Bool
  | none => false
  | some s => !(s == "")

/-- The field's string value (`""` when absent; only read under `truthy`). -/
def fieldVal (o : Option String) : String := o.getD ""

/-- What the user observes after a modal submit handler finishes. -/
inductive Outcome where
  | navigate (url : String)
  | genericError (detail : String)
  | modalError (msg : String)
  | reload
deriving Repr, DecidableEq

/-- The response branching the borrow, return and delete handlers repeat
verbatim: `data.redirect` navigates; else `data.log_error` shows the generic
"An error has occurred!" and logs the detail; else `data.modal_error` is
shown verbatim in the modal; else the page reloads. -/
def triStateBranch (d : ApiResponse) : Outcome :=
  if truthy d.redirect then .navigate (fieldVal d.redirect)
  else if truthy d.log_error then .genericError (fieldVal d.log_error)
  else if truthy d.modal_error then .modalError (fieldVal d.modal_error)
  else .reload

/-- The logout submit handler's branching (`modal-logout.js`): it starts at
`data.log_error` — there is no `data.redirect` branch. -/
def logoutBranch (d : ApiResponse) : Outcome :=
  if truthy d.log_error then .genericError (fieldVal d.log_error)
  else if truthy d.modal_error then .modalError (fieldVal d.modal_error)
  else .reload

/-- How the POST came back: `.ok` a parsed JSON body; `.error` a non-OK HTTP
status (its body is thrown), a network failure or a parse failure — each
reaches the handler's `catch` block with the error value. -/
abbrev FetchResult := Except String ApiResponse

/-- A mutation of the submit button's `disabled` flag. -/
inductive BtnEvent where
  | disable
  | enable
deriving Repr, DecidableEq

/-- `borrowBook`'s submit listener: `button.disabled = true` at entry, the
try/catch branches on the fetch result, and a `finally` block re-enables the
button on every path. -/
def borrowSubmit (r : FetchResult) : Outcome × List BtnEvent :=
  (match r with
    | .ok d => triStateBranch d
    | .error e => .genericError e,
   [BtnEvent.disable, BtnEvent.enable])

/-- `returnBook`'s submit listener: same disable / tri-state / `finally`
re-enable structure as `borrowSubmit`. -/
def returnSubmit (r : FetchResult) : Outcome × List BtnEvent :=
  (match r with
    | .ok d => triStateBranch d
    | .error e => .genericError e,
   [BtnEvent.disable, BtnEvent.enable])

/-- `deleteBook`'s submit listener: the same tri-state branching, but the
handler never touches `button.disabled` and has no `finally` block. -/
def deleteSubmit (r : FetchResult) : Outcome × List BtnEvent :=
  (match r with
    | .ok d => triStateBranch d
    | .error e => .genericError e,
   [])

/-- The logout submit listener: `logoutBranch` on success, generic error in
`catch`; it never touches the submit button's `disabled` flag. -/
def logoutSubmit (r : FetchResult) : Outcome × List BtnEvent :=
  (match r with
    | .ok d => logoutBranch d
    | .error e => .genericError e,
   [])

/-! ## Shared-form submit listeners

`borrowBook`, `returnBook` and `deleteBook` each run
`document.getElementById('modal-X-form').addEventListener('submit', …)` on
every invocation, never removing earlier listeners; firing `submit` runs all
of them and each issues its own POST. -/

/-- One registered submit listener with the entity its closure captured. -/
structure SubmitListener where
  endpoint : String
  isbn : String
deriving Repr, DecidableEq

/-- `addEventListener('submit', …)`: appends a fresh listener to the form's
listener list. -/
def addSubmitListener (ls : List SubmitListener) (l : SubmitListener) : List SubmitListener :=
  ls ++ [l]

/-- Firing `submit` on the form: each registered listener issues its POST
`fetch(endpoint + "?isbn=" + isbn, { method: "POST", … })`; the returned
list is the requests issued, in listener order. -/
def dispatchSubmit (ls : List SubmitListener) : List String :=
  ls.map (fun l => l.endpoint ++ "?isbn=" ++ l.isbn)


/-! ## Search controller: history synchronisation (`search-bar-books.js` /
`search-bar-borrows.js`, `searchQuery(query, active)`)

`searchQuery` builds the query URL and then runs
`if (!window.popStateEvent) { if (active) history.pushState({path:url},'',url)
else history.pushState(null,'',currentPath) }`.  Only the history effect of
one call is modelled. -/

/-- The browser-history effect of one `searchQuery` call: nothing, or one
`history.pushState(state, '', url)` (a pushed entry). -/
inductive HistoryEffect where
  | noPush
  | push (state : Option String) (url : String)
deriving Repr, DecidableEq

/-- The history branch of `searchQuery`, given the reentrancy flag
`window.popStateEvent`, the `active` argument, the query URL it built and the
page's `currentPath`. -/
def searchQueryHistory (popStateEvent active : Bool) (url currentPath : String) :
    HistoryEffect :=
  if !popStateEvent then
    if active then .push (some url) url
    else .push none currentPath
  else .noPush

/-! ## Search result rendering (`search-bar-books.js` lines 61-93,
`search-bar-borrows.js` lines 59-66)

After a fetch, the container is cleared back to its empty-state element, the
empty-state text is set, the books page may add the staff "Add a book"
shortcut (a clone of the query-item template) when the search bar is empty,
and one clone is appended per result. -/

/-- A clone of the query-item template appended to the results container. -/
inductive QueryItem where
  | addShortcut
  | bookItem (isbn : String)
deriving Repr, DecidableEq

/-- The books page's result rendering: empty-state text, then the staff
shortcut when `data.is_staff` and the search bar is blank, then one clone per
book.  Returns (empty-state text, appended clones in order). -/
def renderBooksResults (books : List String) (isStaff emptySearchBar : Bool) :
    String × List QueryItem :=
  ( if books.length > 0 then "" else "Nothing to display here."
  , (if isStaff && emptySearchBar then [QueryItem.addShortcut] else [])
      ++ books.map QueryItem.bookItem )

/-- The borrows page's record-search rendering: empty-state text and one
clone per record; it has no staff shortcut. -/
def renderRecordsResults (records : List String) : String × List QueryItem :=
  ( if records.length > 0 then "" else "Nothing to display here."
  , records.map QueryItem.bookItem )


/-! ## Filter-state round trip (`search-bar-books.js` `searchQuery` lines
37-41; the filter/search interaction script's `popstate` handler)

`searchQuery` interpolates the filter state into
`q=${query}&sort=${searchFilter.sort}&genres=${encodeURIComponent(searchFilter.genres)}`
(a JS array interpolates as its elements joined by `,`) and pushes
`${currentPath}?${params}`.  The `popstate` handler re-parses
`window.location.search` with `URLSearchParams` and writes each owned key
back into `searchFilter`: array-valued keys (per `defaultFilter`) via
`value.split(',').filter(v => v)`, scalar keys as the plain value.

Query-string text is modelled as a list of characters (`JStr`), and
`URLSearchParams`' percent-decoding as the exact inverse of
`encodeURIComponent`'s escaping, modelled for the characters that can need
escaping in this pipeline (`%`, `,`, `&`, `=`, `+`, space); every other
character passes through both directions. -/

/-- A JS string as its character list. -/
abbrev JStr := List Char

/-- One character's `encodeURIComponent` escaping (the escapes this pipeline
can produce). -/
def encChar (c : Char) : JStr :=
  if c = '%' then ['%', '2', '5']
  else if c = ',' then ['%', '2', 'C']
  else if c = '&' then ['%', '2', '6']
  else if c = '=' then ['%', '3', 'D']
  else if c = '+' then ['%', '2', 'B']
  else if c = ' ' then ['%', '2', '0']
  else [c]

/-- `encodeURIComponent`. -/
def encodeURIComponent : JStr → JStr
  | [] => []
  | c :: rest => encChar c ++ encodeURIComponent rest

/-- `URLSearchParams`' percent-decoding, the inverse of the escapes above. -/
def percentDecode : JStr → JStr
  | '%' :: '2' :: '5' :: rest => '%' :: percentDecode rest
  | '%' :: '2' :: 'C' :: rest => ',' :: percentDecode rest
  | '%' :: '2' :: '6' :: rest => '&' :: percentDecode rest
  | '%' :: '3' :: 'D' :: rest => '=' :: percentDecode rest
  | '%' :: '2' :: 'B' :: rest => '+' :: percentDecode rest
  | '%' :: '2' :: '0' :: rest => ' ' :: percentDecode rest
  | c :: rest => c :: percentDecode rest
  | [] => []

/-- JS array-to-string interpolation: elements joined with `,`. -/
def joinComma : List JStr → JStr
  | [] => []
  | [g] => g
  | g :: rest => g ++ ',' :: joinComma rest

/-- `String.prototype.split(',')`. -/
def splitComma : JStr → List JStr
  | [] => [[]]
  | c :: rest =>
    match splitComma rest with
    | [] => [[c]]
    | h :: t => if c = ',' then [] :: h :: t else (c :: h) :: t

/-- The popstate handler's array-key restoration:
`value ? value.split(',').filter(v => v) : []`. -/
def parseGenres (value : JStr) : List JStr :=
  if value = [] then []
  else (splitComma value).filter (fun v => v ≠ [])

/-- The books page's filter state: `searchFilter.sort` (single choice) and
`searchFilter.genres` (multi choice). -/
structure SearchFilter where
  sort : JStr
  genres : List JStr
deriving Repr, DecidableEq

/-- The `params` template string of the books page's `searchQuery` (its
`query` argument is already trimmed by the caller). -/
def buildParams (query : JStr) (f : SearchFilter) : JStr :=
  ['q', '='] ++ query
    ++ ['&', 's', 'o', 'r', 't', '='] ++ f.sort
    ++ ['&', 'g', 'e', 'n', 'r', 'e', 's', '=']
    ++ encodeURIComponent (joinComma f.genres)

/-- `URLSearchParams` segmenting: split the query string on `&`. -/
def splitAmp : JStr → List JStr
  | [] => [[]]
  | c :: rest =>
    match splitAmp rest with
    | [] => [[c]]
    | h :: t => if c = '&' then [] :: h :: t else (c :: h) :: t

/-- Split one `key=value` segment at its first `=` (no `=`: empty value). -/
def splitEq : JStr → JStr × JStr
  | [] => ([], [])
  | c :: rest =>
    if c = '=' then ([], rest)
    else ((c :: (splitEq rest).1), (splitEq rest).2)

/-- `new URLSearchParams(search)`: `&`-separated segments, each split at its
first `=`, keys and values percent-decoded, in order. -/
def parseParams (s : JStr) : List (JStr × JStr) :=
  (splitAmp s).map (fun seg =>
    (percentDecode (splitEq seg).1, percentDecode (splitEq seg).2))

/-- One parameter of the popstate handler's `newParams.forEach`: `q` is
skipped (handled separately), `sort` is scalar per `defaultFilter`, `genres`
is array-valued per `defaultFilter`; parameters `searchFilter` does not own
are ignored. -/
def applyParam (f : SearchFilter) (kv : JStr × JStr) : SearchFilter :=
  if kv.1 = ['q'] then f
  else if kv.1 = ['s', 'o', 'r', 't'] then { f with sort := kv.2 }
  else if kv.1 = ['g', 'e', 'n', 'r', 'e', 's'] then { f with genres := parseGenres kv.2 }
  else f

/-- The filter restoration the popstate handler performs against a query
string. -/
def popstateRestore (search : JStr) (f : SearchFilter) : SearchFilter :=
  (parseParams search).foldl applyParam f


/-! ## Theorems -/

/-- C1: for every millisecond duration `ms ≥ 0`, `formatTimeLeft ms` is the
largest three non-zero units among days, hours, minutes, seconds (suffixed
d/h/m/s, space-separated, largest first) and `"0s"` when all units are zero;
in particular `formatTimeLeft 0 = "0s"` and
`formatTimeLeft (1*86400000 + 3*3600000 + 15*60000) = "1d 3h 15m"`. -/
theorem formatTimeLeft_matches_spec :
    (∀ ms : Nat, formatTimeLeft ms = specTimeLeft ms) ∧
    formatTimeLeft 0 = "0s" ∧
    formatTimeLeft (1 * 86400000 + 3 * 3600000 + 15 * 60000) = "1d 3h 15m" := by
  refine ⟨fun ms => ?_, by decide, by decide⟩
  have hh : ms % 86400000 / 3600000 = ms / (1000 * 60 * 60) % 24 := by
    omega
  have hm : ms % 3600000 / 60000 = ms / (1000 * 60) % 60 := by
    omega
  have hs : ms % 60000 / 1000 = ms / 1000 % 60 := by
    omega
  have hpred : ∀ u : Nat × String, (u.1 ≠ 0 : Bool) = decide (0 < u.1) := by
    intro u; simp [Nat.pos_iff_ne_zero]
  simp only [formatTimeLeft, specTimeLeft, hh, hm, hs, hpred]
  norm_num [List.isEmpty_iff]

/-- C2: a due-timer tick computes `remaining = dueDate - now`; `remaining ≤ 0`
shows `"Overdue!"`, applies critical styling and cancels the timer;
`0 < remaining ≤ 3` days applies critical styling; `3` days `< remaining ≤ 7`
days applies warning styling; `remaining > 7` days leaves the clock neutral
(neither critical nor warning). -/
theorem updateDueTimer_thresholds :
    ∀ (dueDate now : Int) (s : ClockState),
      ((dueDate - now ≤ 0 →
          (updateDueTimer dueDate now s).tooltip = "Overdue!" ∧
          (updateDueTimer dueDate now s).critical = true ∧
          (updateDueTimer dueDate now s).warning = false ∧
          (updateDueTimer dueDate now s).timerActive = false) ∧
        (0 < dueDate - now ∧ dueDate - now ≤ 3 * dayMs →
          (updateDueTimer dueDate now s).critical = true ∧
          (updateDueTimer dueDate now s).warning = false) ∧
        (3 * dayMs < dueDate - now ∧ dueDate - now ≤ 7 * dayMs →
          (updateDueTimer dueDate now s).warning = true ∧
          (updateDueTimer dueDate now s).critical = false) ∧
        (7 * dayMs < dueDate - now →
          (updateDueTimer dueDate now s).critical = false ∧
          (updateDueTimer dueDate now s).warning = false)) := by
  intro dueDate now s
  have hd : dayMs = 86400000 := rfl
  refine ⟨fun h => ?_, fun h => ?_, fun h => ?_, fun h => ?_⟩ <;>
    simp only [updateDueTimer, ClockState.addClass] <;>
    split_ifs <;>
    simp_all [hd] <;>
    omega

/-- C3: a cooldown tick disables the return action exactly while
`now < borrowDate + 24h`, with the tooltip showing the remaining time; once
`now ≥ borrowDate + 24h` the timer cancels itself, the action is enabled and
the tooltip reads `"Return this book"`. -/
theorem updateReturnTimer_cooldown :
    ∀ (borrowDate now : Int) (s : ReturnState),
      (((updateReturnTimer borrowDate now s).disabled = true ↔
          now < borrowDate + dayMs) ∧
        (now < borrowDate + dayMs →
          (updateReturnTimer borrowDate now s).tooltip =
            "You can return this in " ++
              formatTimeLeft (borrowDate + dayMs - now).toNat) ∧
        (borrowDate + dayMs ≤ now →
          (updateReturnTimer borrowDate now s).disabled = false ∧
          (updateReturnTimer borrowDate now s).timerActive = false ∧
          (updateReturnTimer borrowDate now s).tooltip = "Return this book")) := by
  intro borrowDate now s
  have hd : dayMs = 86400000 := rfl
  refine ⟨?_, fun h => ?_, fun h => ?_⟩
  · simp only [updateReturnTimer, one_mul, hd, decide_eq_true_eq]
    omega
  · simp only [updateReturnTimer, one_mul, hd] at h ⊢
    rw [if_neg (by omega)]
  · simp only [updateReturnTimer, one_mul, hd] at h ⊢
    refine ⟨?_, ?_, ?_⟩
    · simp only [decide_eq_false_iff_not]
      omega
    · rw [if_pos (by omega)]
    · rw [if_pos (by omega)]

/-- C9: the clock element never carries both the critical and the warning
styling class at once: the `addClass` helper applying either class removes
the other, and after any due-timer tick the two flags are never both set. -/
theorem dueTimer_styles_mutually_exclusive :
    ∀ (dueDate now : Int) (s : ClockState),
      ((s.addClass "critical").warning = false ∧
        (s.addClass "warning").critical = false ∧
        ((updateDueTimer dueDate now s).critical &&
            (updateDueTimer dueDate now s).warning) = false) := by
  intro dueDate now s
  refine ⟨by simp [ClockState.addClass], by simp [ClockState.addClass], ?_⟩
  simp only [updateDueTimer, ClockState.addClass]
  split_ifs <;> simp_all

/-- C4 counterexample: a logout response carrying only `redirect` reloads the
page instead of navigating — the logout handler has no `redirect` branch. -/
theorem logout_redirect_response_reloads :
    (logoutSubmit (Except.ok { redirect := some "/login" })).1 = Outcome.reload ∧
    (logoutSubmit (Except.ok { redirect := some "/login" })).1 ≠
      Outcome.navigate "/login" := by
  exact ⟨rfl, by simp [logoutSubmit, logoutBranch, truthy]⟩

/-- C4 (amended): the borrow, return and delete submit handlers branch
uniformly — `redirect` navigates; otherwise `log_error` shows the generic
error with the detail logged; otherwise `modal_error` is shown verbatim;
otherwise the page reloads.  The logout handler follows the same ladder from
`log_error` on, but omits the `redirect` branch, so a logout response whose
only set field is `redirect` reloads. -/
theorem modal_response_branching :
    ∀ d : ApiResponse,
      ((borrowSubmit (Except.ok d)).1 = triStateBranch d ∧
        (returnSubmit (Except.ok d)).1 = triStateBranch d ∧
        (deleteSubmit (Except.ok d)).1 = triStateBranch d ∧
        (logoutSubmit (Except.ok d)).1 = logoutBranch d ∧
        (truthy d.redirect = true →
          triStateBranch d = Outcome.navigate (fieldVal d.redirect)) ∧
        (truthy d.redirect = false → truthy d.log_error = true →
          triStateBranch d = Outcome.genericError (fieldVal d.log_error)) ∧
        (truthy d.redirect = false → truthy d.log_error = false →
          truthy d.modal_error = true →
          triStateBranch d = Outcome.modalError (fieldVal d.modal_error)) ∧
        (truthy d.redirect = false → truthy d.log_error = false →
          truthy d.modal_error = false → triStateBranch d = Outcome.reload) ∧
        (truthy d.log_error = true →
          logoutBranch d = Outcome.genericError (fieldVal d.log_error)) ∧
        (truthy d.log_error = false → truthy d.modal_error = true →
          logoutBranch d = Outcome.modalError (fieldVal d.modal_error)) ∧
        (truthy d.log_error = false → truthy d.modal_error = false →
          logoutBranch d = Outcome.reload)) := by
  intro d
  refine ⟨rfl, rfl, rfl, rfl, ?_, ?_, ?_, ?_, ?_, ?_, ?_⟩ <;>
    intros <;> simp_all [triStateBranch, logoutBranch]

/-- C5 counterexample: `deleteBook`'s submit handler performs no
`disabled`-flag mutation at all — in particular it never disables the submit
control before issuing the POST. -/
theorem deleteBook_never_disables_submit :
    (deleteSubmit (Except.ok ({} : ApiResponse))).2 = [] ∧
    BtnEvent.disable ∉ (deleteSubmit (Except.ok ({} : ApiResponse))).2 := by
  exact ⟨rfl, by simp [deleteSubmit]⟩

/-- C5 (amended): only the borrow and return submit handlers disable the
submit control before the POST and re-enable it in a `finally` block on
every outcome; the delete and logout handlers never touch the control's
`disabled` flag. -/
theorem submit_control_button_events :
    ∀ r : FetchResult,
      ((borrowSubmit r).2 = [BtnEvent.disable, BtnEvent.enable] ∧
        (returnSubmit r).2 = [BtnEvent.disable, BtnEvent.enable] ∧
        (deleteSubmit r).2 = [] ∧
        (logoutSubmit r).2 = []) :=
  fun _ => ⟨rfl, rfl, rfl, rfl⟩

/-- Appending via `addSubmitListener` accumulates: folding the registrations
over a call list appends the calls to the existing listeners. -/
theorem foldl_addSubmitListener (l : List SubmitListener) :
    ∀ init : List SubmitListener,
      l.foldl addSubmitListener init = init ++ l := by
  induction l with
  | nil => simp
  | cons x xs ih => intro init; simp [addSubmitListener, ih]

/-- C10: each invocation of a modal entry point registers a new submit
listener on the shared form without removing the earlier ones, so after `n`
invocations one form submission dispatches `n` POST requests — one per
registered invocation, in order. -/
theorem modal_submit_dispatches_one_post_per_invocation :
    ∀ calls : List SubmitListener,
      (dispatchSubmit (calls.foldl addSubmitListener [])).length = calls.length ∧
      dispatchSubmit (calls.foldl addSubmitListener []) =
        calls.map (fun l => l.endpoint ++ "?isbn=" ++ l.isbn) := by
  intro calls
  rw [foldl_addSubmitListener]
  simp [dispatchSubmit]

/-- C6 counterexample: with the popstate flag unset and the caller opting out
of history tracking (`active = false`), `searchQuery` still pushes a history
entry — `history.pushState(null, '', currentPath)` — contradicting "browser
history is not pushed". -/
theorem optout_searchQuery_still_pushes :
    searchQueryHistory false false "/library?q=a&sort=popular&genres=" "/library" =
      HistoryEffect.push none "/library" ∧
    searchQueryHistory false false "/library?q=a&sort=popular&genres=" "/library" ≠
      HistoryEffect.noPush := by
  exact ⟨rfl, by simp [searchQueryHistory]⟩

/-- C6 (amended): an entry carrying the query URL is pushed iff the popstate
flag is unset and the caller did not opt out; when the flag is set nothing is
pushed; when the flag is unset but the caller opted out, an entry with a
null state and the bare `currentPath` (no query string) is pushed instead. -/
theorem searchQuery_history_push :
    ∀ (popStateEvent active : Bool) (url currentPath : String),
      ((searchQueryHistory popStateEvent active url currentPath =
          HistoryEffect.push (some url) url ↔
            popStateEvent = false ∧ active = true) ∧
        (popStateEvent = true →
          searchQueryHistory popStateEvent active url currentPath =
            HistoryEffect.noPush) ∧
        (popStateEvent = false → active = false →
          searchQueryHistory popStateEvent active url currentPath =
            HistoryEffect.push none currentPath)) := by
  intro popStateEvent active url currentPath
  cases popStateEvent <;> cases active <;> simp [searchQueryHistory]

/-- C8 counterexample: an empty books result for a staff user whose search
bar is blank renders the "Add a book" shortcut clone, so the container is not
clone-free. -/
theorem staff_empty_results_render_shortcut :
    (renderBooksResults [] true true).1 = "Nothing to display here." ∧
    (renderBooksResults [] true true).2 ≠ [] := by
  exact ⟨rfl, by simp [renderBooksResults]⟩

/-- C8 (amended): an empty result list always renders exactly
`"Nothing to display here."` in the empty-state element; the records search
renders no clones, and the books search renders no clones either except the
single staff "Add a book" shortcut when the user is staff and the search bar
is blank. -/
theorem empty_results_rendering :
    ∀ isStaff emptySearchBar : Bool,
      ((renderBooksResults [] isStaff emptySearchBar).1 =
          "Nothing to display here." ∧
        (renderBooksResults [] isStaff emptySearchBar).2 =
          (if isStaff && emptySearchBar then [QueryItem.addShortcut] else []) ∧
        ((isStaff && emptySearchBar) = false →
          (renderBooksResults [] isStaff emptySearchBar).2 = []) ∧
        (renderRecordsResults []).1 = "Nothing to display here." ∧
        (renderRecordsResults []).2 = []) := by
  intro isStaff emptySearchBar
  cases isStaff <;> cases emptySearchBar <;>
    simp [renderBooksResults, renderRecordsResults]

/-- `splitAmp` never returns the empty list. -/
theorem splitAmp_ne_nil : ∀ s : JStr, splitAmp s ≠ [] := by
  intro s
  cases s with
  | nil => simp [splitAmp]
  | cons c rest =>
    rw [splitAmp]
    cases h : splitAmp rest with
    | nil => simp
    | cons hd tl =>
      dsimp only
      split <;> simp

/-- A segment without `&` splits into itself alone. -/
theorem splitAmp_no_amp {a : JStr} (h : '&' ∉ a) : splitAmp a = [a] := by
  induction a with
  | nil => rfl
  | cons c rest ih =>
    have hc : c ≠ '&' := fun hc => h (by simp [hc])
    have hrest : '&' ∉ rest := fun hm => h (List.mem_cons_of_mem _ hm)
    rw [splitAmp, ih hrest]
    simp [hc]

/-- Splitting on `&` peels off an `&`-free prefix. -/
theorem splitAmp_append {a : JStr} (b : JStr) (h : '&' ∉ a) :
    splitAmp (a ++ '&' :: b) = a :: splitAmp b := by
  induction a with
  | nil =>
    rw [List.nil_append, splitAmp]
    cases hb : splitAmp b with
    | nil => exact absurd hb (splitAmp_ne_nil b)
    | cons hd tl => simp
  | cons c rest ih =>
    have hc : c ≠ '&' := fun hc => h (by simp [hc])
    have hrest : '&' ∉ rest := fun hm => h (List.mem_cons_of_mem _ hm)
    rw [List.cons_append, splitAmp, ih hrest]
    simp [hc]

/-- `splitEq` cuts at the first `=`. -/
theorem splitEq_append {k : JStr} (v : JStr) (h : '=' ∉ k) :
    splitEq (k ++ '=' :: v) = (k, v) := by
  induction k with
  | nil => simp [splitEq]
  | cons c rest ih =>
    have hc : c ≠ '=' := fun hc => h (by simp [hc])
    have hrest : '=' ∉ rest := fun hm => h (List.mem_cons_of_mem _ hm)
    rw [List.cons_append, splitEq]
    simp [hc, ih hrest]

/-- `encodeURIComponent` output never contains a raw `&`. -/
theorem amp_not_mem_encode (s : JStr) : '&' ∉ encodeURIComponent s := by
  induction s with
  | nil => simp [encodeURIComponent]
  | cons c rest ih =>
    rw [encodeURIComponent]
    intro hmem
    rcases List.mem_append.mp hmem with h | h
    · unfold encChar at h
      split_ifs at h <;> simp_all
      exact absurd h.symm ‹¬c = '&'›
    · exact ih h

/-- Percent-decoding a plain character is transparent. -/
theorem percentDecode_cons_plain {c : Char} (rest : JStr) (h : c ≠ '%') :
    percentDecode (c :: rest) = c :: percentDecode rest := by
  rw [percentDecode.eq_def]
  split <;> simp_all

/-- A string with no `%` decodes to itself. -/
theorem percentDecode_no_pct {s : JStr} (h : '%' ∉ s) : percentDecode s = s := by
  induction s with
  | nil => rfl
  | cons c rest ih =>
    have hc : c ≠ '%' := fun hc => h (by simp [hc])
    have hrest : '%' ∉ rest := fun hm => h (List.mem_cons_of_mem _ hm)
    rw [percentDecode_cons_plain rest hc, ih hrest]

/-- Percent-decoding inverts `encodeURIComponent`. -/
theorem percentDecode_encode (s : JStr) : percentDecode (encodeURIComponent s) = s := by
  induction s with
  | nil => rfl
  | cons c rest ih =>
    rw [encodeURIComponent]
    unfold encChar
    split_ifs with h1 h2 h3 h4 h5 h6
    · subst h1
      show percentDecode ('%' :: '2' :: '5' :: encodeURIComponent rest) = _
      rw [percentDecode, ih]
    · subst h2
      show percentDecode ('%' :: '2' :: 'C' :: encodeURIComponent rest) = _
      rw [percentDecode, ih]
    · subst h3
      show percentDecode ('%' :: '2' :: '6' :: encodeURIComponent rest) = _
      rw [percentDecode, ih]
    · subst h4
      show percentDecode ('%' :: '3' :: 'D' :: encodeURIComponent rest) = _
      rw [percentDecode, ih]
    · subst h5
      show percentDecode ('%' :: '2' :: 'B' :: encodeURIComponent rest) = _
      rw [percentDecode, ih]
    · subst h6
      show percentDecode ('%' :: '2' :: '0' :: encodeURIComponent rest) = _
      rw [percentDecode, ih]
    · show percentDecode (c :: encodeURIComponent rest) = _
      rw [percentDecode_cons_plain _ h1, ih]

/-- `splitComma` never returns the empty list. -/
theorem splitComma_ne_nil : ∀ s : JStr, splitComma s ≠ [] := by
  intro s
  cases s with
  | nil => simp [splitComma]
  | cons c rest =>
    rw [splitComma]
    cases h : splitComma rest with
    | nil => simp
    | cons hd tl =>
      dsimp only
      split <;> simp

/-- A comma-free string splits into itself alone. -/
theorem splitComma_no_comma {a : JStr} (h : ',' ∉ a) : splitComma a = [a] := by
  induction a with
  | nil => rfl
  | cons c rest ih =>
    have hc : c ≠ ',' := fun hc => h (by simp [hc])
    have hrest : ',' ∉ rest := fun hm => h (List.mem_cons_of_mem _ hm)
    rw [splitComma, ih hrest]
    simp [hc]

/-- Splitting on `,` peels off a comma-free prefix. -/
theorem splitComma_append {a : JStr} (b : JStr) (h : ',' ∉ a) :
    splitComma (a ++ ',' :: b) = a :: splitComma b := by
  induction a with
  | nil =>
    rw [List.nil_append, splitComma]
    cases hb : splitComma b with
    | nil => exact absurd hb (splitComma_ne_nil b)
    | cons hd tl => simp
  | cons c rest ih =>
    have hc : c ≠ ',' := fun hc => h (by simp [hc])
    have hrest : ',' ∉ rest := fun hm => h (List.mem_cons_of_mem _ hm)
    rw [List.cons_append, splitComma, ih hrest]
    simp [hc]

/-- Joining a non-empty list of non-empty strings is non-empty. -/
theorem joinComma_ne_nil {l : List JStr} (hne : l ≠ []) (h : ∀ g ∈ l, g ≠ []) :
    joinComma l ≠ [] := by
  cases l with
  | nil => exact absurd rfl hne
  | cons g t =>
    cases t with
    | nil => simpa [joinComma] using h g (by simp)
    | cons g2 t2 => simp [joinComma]

/-- The popstate handler's `split(',').filter(v => v)` inverts the JS
array-to-string interpolation on lists of non-empty, comma-free names. -/
theorem parseGenres_joinComma {l : List JStr} (h : ∀ g ∈ l, g ≠ [] ∧ ',' ∉ g) :
    parseGenres (joinComma l) = l := by
  induction l with
  | nil => rfl
  | cons g t ih =>
    have hg := h g (by simp)
    have ht : ∀ g' ∈ t, g' ≠ [] ∧ ',' ∉ g' := fun g' hm => h g' (by simp [hm])
    cases t with
    | nil =>
      show parseGenres (joinComma [g]) = [g]
      rw [show joinComma [g] = g from rfl]
      unfold parseGenres
      rw [if_neg hg.1, splitComma_no_comma hg.2]
      simp [hg.1]
    | cons g2 t2 =>
      have hjoin : joinComma (g :: g2 :: t2) = g ++ ',' :: joinComma (g2 :: t2) := rfl
      have hjne : joinComma (g2 :: t2) ≠ [] :=
        joinComma_ne_nil (by simp) (fun g' hm => (ht g' hm).1)
      have h2 : (splitComma (joinComma (g2 :: t2))).filter (fun v => v ≠ []) = g2 :: t2 := by
        have hrec := ih ht
        unfold parseGenres at hrec
        rwa [if_neg hjne] at hrec
      simp only [decide_not] at h2
      rw [hjoin]
      unfold parseGenres
      rw [if_neg (by simp), splitComma_append _ hg.2]
      simp [List.filter_cons, hg.1, h2]

/-- C7: setting `searchFilter`, building the query parameter string, pushing
the resulting URL, and handling a popstate navigation back to that URL
restores a `searchFilter` state identical to the one pushed, for every
filter selection (names non-empty and comma-free; the raw-interpolated query
text and sort value contain no `&`, `%` or `+`). -/
theorem filter_state_round_trip :
    ∀ (query : JStr) (f f0 : SearchFilter),
      (∀ c ∈ query, c ≠ '&' ∧ c ≠ '%' ∧ c ≠ '+') →
      (∀ c ∈ f.sort, c ≠ '&' ∧ c ≠ '%' ∧ c ≠ '+') →
      (∀ g ∈ f.genres, g ≠ [] ∧ ',' ∉ g) →
      popstateRestore (buildParams query f) f0 = f := by
  intro query f f0 hq hsort hg
  obtain ⟨sort, genres⟩ := f
  simp only at hsort hg
  have hq_amp : '&' ∉ (['q'] ++ '=' :: query) := by
    intro hm
    rcases List.mem_append.mp hm with h | h
    · exact (by decide : ('&' : Char) ∉ (['q'] : JStr)) h
    · rcases List.mem_cons.mp h with h | h
      · exact (by decide : ('&' : Char) ≠ '=') h
      · exact (hq '&' h).1 rfl
  have hs_amp : '&' ∉ (['s', 'o', 'r', 't'] ++ '=' :: sort) := by
    intro hm
    rcases List.mem_append.mp hm with h | h
    · exact (by decide : ('&' : Char) ∉ (['s', 'o', 'r', 't'] : JStr)) h
    · rcases List.mem_cons.mp h with h | h
      · exact (by decide : ('&' : Char) ≠ '=') h
      · exact (hsort '&' h).1 rfl
  have hg_amp :
      '&' ∉ (['g', 'e', 'n', 'r', 'e', 's'] ++
        '=' :: encodeURIComponent (joinComma genres)) := by
    intro hm
    rcases List.mem_append.mp hm with h | h
    · exact (by decide : ('&' : Char) ∉ (['g', 'e', 'n', 'r', 'e', 's'] : JStr)) h
    · rcases List.mem_cons.mp h with h | h
      · exact (by decide : ('&' : Char) ≠ '=') h
      · exact amp_not_mem_encode (joinComma genres) h
  have hshape : buildParams query ⟨sort, genres⟩ =
      (['q'] ++ '=' :: query) ++ '&' ::
        ((['s', 'o', 'r', 't'] ++ '=' :: sort) ++ '&' ::
          (['g', 'e', 'n', 'r', 'e', 's'] ++
            '=' :: encodeURIComponent (joinComma genres))) := by
    simp [buildParams, List.append_assoc]
  have hsplit : splitAmp (buildParams query ⟨sort, genres⟩) =
      [ ['q'] ++ '=' :: query
      , ['s', 'o', 'r', 't'] ++ '=' :: sort
      , ['g', 'e', 'n', 'r', 'e', 's'] ++
          '=' :: encodeURIComponent (joinComma genres) ] := by
    rw [hshape, splitAmp_append _ hq_amp, splitAmp_append _ hs_amp,
      splitAmp_no_amp hg_amp]
  have e1 : splitEq (['q'] ++ '=' :: query) = (['q'], query) :=
    splitEq_append _ (by decide)
  have e2 : splitEq (['s', 'o', 'r', 't'] ++ '=' :: sort) =
      (['s', 'o', 'r', 't'], sort) :=
    splitEq_append _ (by decide)
  have e3 : splitEq (['g', 'e', 'n', 'r', 'e', 's'] ++
        '=' :: encodeURIComponent (joinComma genres)) =
      (['g', 'e', 'n', 'r', 'e', 's'], encodeURIComponent (joinComma genres)) :=
    splitEq_append _ (by decide)
  have hq_pct : '%' ∉ query := fun hm => (hq '%' hm).2.1 rfl
  have hs_pct : '%' ∉ sort := fun hm => (hsort '%' hm).2.1 rfl
  have hparams : parseParams (buildParams query ⟨sort, genres⟩) =
      [ (['q'], query)
      , (['s', 'o', 'r', 't'], sort)
      , (['g', 'e', 'n', 'r', 'e', 's'], joinComma genres) ] := by
    rw [parseParams, hsplit]
    simp only [List.map, e1, e2, e3]
    rw [percentDecode_no_pct hq_pct, percentDecode_no_pct hs_pct,
      percentDecode_encode,
      show percentDecode ['q'] = ['q'] from rfl,
      show percentDecode ['s', 'o', 'r', 't'] = ['s', 'o', 'r', 't'] from rfl,
      show percentDecode ['g', 'e', 'n', 'r', 'e', 's'] =
        ['g', 'e', 'n', 'r', 'e', 's'] from rfl]
  have a1 : applyParam f0 (['q'], query) = f0 := by
    unfold applyParam
    dsimp only
    rw [if_pos rfl]
  have a2 : ∀ fx : SearchFilter,
      applyParam fx (['s', 'o', 'r', 't'], sort) = { fx with sort := sort } := by
    intro fx
    unfold applyParam
    dsimp only
    rw [if_neg (by decide), if_pos rfl]
  have a3 : ∀ fx : SearchFilter,
      applyParam fx (['g', 'e', 'n', 'r', 'e', 's'], joinComma genres) =
        { fx with genres := genres } := by
    intro fx
    unfold applyParam
    dsimp only
    rw [if_neg (by decide), if_neg (by decide), if_pos rfl,
      parseGenres_joinComma hg]
  rw [popstateRestore, hparams]
  simp only [List.foldl, a1, a2, a3]

/-- C7 witness: the round trip restores a concrete filter state. -/
theorem filter_state_round_trip_witness :
    popstateRestore
        (buildParams "harry".toList
          ⟨"popular".toList, ["fantasy".toList, "horror".toList]⟩)
        ⟨[], []⟩ =
      ⟨"popular".toList, ["fantasy".toList, "horror".toList]⟩ :=
  filter_state_round_trip "harry".toList
    ⟨"popular".toList, ["fantasy".toList, "horror".toList]⟩ ⟨[], []⟩
    (by decide) (by decide) (by decide)
